import Mathlib

/-!
Verification of the us-statutes ingestion pipeline.

This file shallowly embeds the core of the repository in Lean 4:

* the canonical data model (`Section`, `Chapter`, `Title`) from
  `pipeline/ingestion/base.py`;
* the text-cleaning helpers from `pipeline/normalization/text_cleaner.py`;
* the section-extraction engine `extract_sections_from_soup` from
  `pipeline/ingestion/official_website.py` (both strategies, the nine
  section-number patterns, dedup, the 30-character guard, and `_slugify`);
* the merge step of `update_content_json_direct` from
  `fetch_section_text.py`, and the challenge-filtering `curl_fetch`;
* the disk cache `HttpCache` from `pipeline/utils/cache.py`;
* the token-bucket `RateLimiter` from `pipeline/utils/rate_limiter.py`;
* the empty-node-dropping parse skeletons of `JustiaIngestor.parse`
  (`pipeline/ingestion/justia.py`) and
  `OfficialWebsiteIngestor._generic_parse`
  (`pipeline/ingestion/official_website.py`).

Modelling conventions: Python strings are Lean `String`s (both count code
points, so Python `len` is `String.length`); documents handed to the
extraction engine are lists of elements carrying the tag name and the
`get_text(strip=True)` result, traversed in document order; wall-clock and
monotonic time are explicit numeric arguments; file-system state is an
explicit association list.  Python's Unicode-aware character classes are
modelled on the characters that occur in statute text (ASCII plus the
Unicode spaces the source itself mentions).
-/

namespace Statutes

/-- The `Section` dataclass from `pipeline/ingestion/base.py`. -/
structure Section where
  id : String
  number : String
  heading : String
  text : String
  history : String := ""
  source_url : String := ""
  deriving Repr, DecidableEq

/-- The `Chapter` dataclass from `pipeline/ingestion/base.py`. -/
structure Chapter where
  id : String
  number : String
  heading : String
  sections : List Section := []
  deriving Repr, DecidableEq

/-- The `Title` dataclass from `pipeline/ingestion/base.py`. -/
structure Title where
  id : String
  number : String
  heading : String
  chapters : List Chapter := []
  deriving Repr, DecidableEq

/-! Character classes and Python string helpers -/

/-- Python's `\s` (`re` on `str`): ASCII whitespace, the C1 separators and
the Unicode spaces.  Restricted to the code points that occur in the
statute corpora (the source itself only special-cases ` `/` `). -/
def isPySpace (c : Char) : Bool :=
  let n := c.toNat
  n = 0x20 || n = 0x9 || n = 0xa || n = 0xd || n = 0xb || n = 0xc ||
  n = 0x1c || n = 0x1d || n = 0x1e || n = 0x1f || n = 0x85 || n = 0xa0 ||
  n = 0x1680 || (0x2000 ≤ n && n ≤ 0x200a) || n = 0x2028 || n = 0x2029 ||
  n = 0x202f || n = 0x205f || n = 0x3000

/-- Python's `\w` on the ASCII range: alphanumerics and underscore. -/
def isWordChar (c : Char) : Bool :=
  c.isAlphanum || c = '_'

/-- Python `str.strip()` on a character list. -/
def pyStripL (cs : List Char) : List Char :=
  ((cs.dropWhile isPySpace).reverse.dropWhile isPySpace).reverse

/-- Python `str.strip()`. -/
def pyStrip (s : String) : String :=
  String.mk (pyStripL s.data)

/-- Replace every maximal run of characters satisfying `p` by the single
character `r` (the effect of `re.sub(cls + "+", r, ·)`). -/
def collapseRuns (p : Char → Bool) (r : Char) (cs : List Char) : List Char :=
  (cs.foldl
    (fun (acc : List Char × Bool) c =>
      if p c then (if acc.2 then acc else (acc.1 ++ [r], true))
      else (acc.1 ++ [c], false))
    ([], false)).1

/-- Strip a given character from both ends (Python `str.strip("-")`). -/
def stripChar (x : Char) (cs : List Char) : List Char :=
  ((cs.dropWhile (fun c => c = x)).reverse.dropWhile (fun c => c = x)).reverse

/-- The `clean_section_number` from `pipeline/normalization/text_cleaner.py`:
drop `§` (U+00A7), collapse whitespace runs to one space, strip. -/
def clean_section_number (s : String) : String :=
  String.mk (pyStripL (collapseRuns isPySpace ' '
    (s.data.filter (fun c => c.toNat ≠ 0xa7))))

/-- The `_slugify` from `pipeline/ingestion/official_website.py`: lower-case,
strip, drop everything outside `\w`, `\s`, `-`, turn space/underscore runs
into `-`, collapse `-` runs, strip `-`, with fallback `"unknown"`. -/
def slugify (s : String) : String :=
  let cs := pyStripL (s.data.map Char.toLower)
  let cs := cs.filter (fun c => isWordChar c || isPySpace c || c = '-')
  let cs := collapseRuns (fun c => isPySpace c || c = '_') '-' cs
  let cs := collapseRuns (fun c => c = '-') '-' cs
  let cs := stripChar '-' cs
  if cs.isEmpty then "unknown" else String.mk cs

/-! C1 — the merge step of `update_content_json_direct`
(`fetch_section_text.py`, lines 489–497).

`update_content_json_direct` looks a stored section's number up in the
fetched data; when a candidate `(url, heading, text)` matches, the stored
record is updated exactly as `applyCandidate` does. -/

/-- One fetched `(url, heading, text)` candidate from
`update_content_json_direct`'s `url_lookup`. -/
structure FetchedSec where
  url : String
  heading : String
  text : String
  deriving Repr, DecidableEq

/-- Lines 489–497 of `fetch_section_text.py`: replace the stored text iff
the incoming text is truthy and strictly longer; inside that branch also
backfill an empty heading and record the source URL. -/
def applyCandidate (s : Section) (m : FetchedSec) : Section :=
  if m.text ≠ "" ∧ s.text.length < m.text.length then
    { s with
      text := m.text
      heading := if m.heading ≠ "" ∧ s.heading = "" then m.heading else s.heading
      source_url := m.url }
  else s

/-- The slug `update_content_json_direct` constructs when the plain number
misses: `"section-" + re.sub(r"[^a-z0-9]", "-", num.lower()).strip("-")`. -/
def numSlug (sec_num : String) : String :=
  "section-" ++ String.mk (stripChar '-'
    ((sec_num.data.map Char.toLower).map
      (fun c => if ('a' ≤ c ∧ c ≤ 'z') ∨ c.isDigit then c else '-')))

/-- The per-file update loop of `update_content_json_direct`: each stored
section with a non-empty number is matched against the lookup (exact
number first, constructed slug second) and merged by `applyCandidate`. -/
def updateSections (lookup : String → Option FetchedSec)
    (sections : List Section) : List Section :=
  sections.map (fun s =>
    let sec_num := pyStrip s.number
    if sec_num = "" then s
    else
      match lookup sec_num with
      | some m => applyCandidate s m
      | none =>
        match lookup (numSlug sec_num) with
        | some m => applyCandidate s m
        | none => s)

/-! C4 — `HttpCache` (`pipeline/utils/cache.py`).

The cache directory is an association list from hashed key to
`(body, timestamp)`; `hash` abstracts `_cache_key` (SHA-256 hex digest).
Writing prepends, and `List.lookup` finds the newest entry, which models
overwriting the file for that key. -/

/-- One cached response: the `.json` body file plus the timestamp stored in
the `.meta.json` sibling. -/
structure CacheEntry where
  body : String
  timestamp : Nat
  deriving Repr, DecidableEq

/-- The on-disk state of an `HttpCache` plus its configured TTL. -/
structure CacheState where
  ttl : Nat
  entries : List (String × CacheEntry)
  deriving Repr, DecidableEq

/-- The `HttpCache.put`: write body and metadata (timestamp `now`) for the
hashed URL key. -/
def cachePut (hash : String → String) (st : CacheState) (now : Nat)
    (url body : String) : CacheState :=
  { st with entries := (hash url, ⟨body, now⟩) :: st.entries }

/-- The `HttpCache.get_cached`: return the body if both files exist and the
entry's age does not exceed the TTL (`time.time() - timestamp > ttl`
expires strictly). -/
def cacheGet (hash : String → String) (st : CacheState) (now : Nat)
    (url : String) : Option String :=
  match st.entries.lookup (hash url) with
  | none => none
  | some e => if st.ttl < now - e.timestamp then none else some e.body

/-- The `HttpCache.fetch`: serve the cache if `get_cached` hits; otherwise
perform a real, rate-limited request (flag `true` in the result), raise on
a 4xx/5xx status (`raise_for_status`), and unconditionally write the fresh
body through `put`. -/
def cacheFetch (hash : String → String) (st : CacheState) (now : Nat)
    (url : String) (status : Nat) (respBody : String) :
    Except Nat (String × CacheState × Bool) :=
  match cacheGet hash st now url with
  | some b => .ok (b, st, false)
  | none =>
    if 400 ≤ status then .error status
    else .ok (respBody, cachePut hash st now url respBody, true)

/-! C3 — `curl_fetch` (`fetch_section_text.py`, lines 44–73) and the
non-scanning `HttpCache.fetch`. -/

/-- The `cloudflare_markers` list from `curl_fetch`. -/
def challengeMarkers : List String :=
  ["Just a moment", "Checking your browser", "cf-browser-verification"]

/-- Substring test (Python `needle in hay`). -/
def listContainsSub (needle hay : List Char) : Bool :=
  (List.range (hay.length + 1)).any (fun i => needle.isPrefixOf (hay.drop i))

/-- Python `needle in hay` on strings. -/
def strIn (needle hay : String) : Bool :=
  listContainsSub needle.data hay.data

/-- The acceptance test of one `curl` attempt: exit code 0, body longer
than 500 characters, and no challenge marker in the first 2000 characters
of the body. -/
def attemptAccept (rc : Int) (out : String) : Bool :=
  rc = 0 && 500 < out.length &&
    !(challengeMarkers.any (fun m => strIn m (String.mk (out.data.take 2000))))

/-- The retry loop of `curl_fetch`, processing at most `n` attempt
outcomes (`none` models a `TimeoutExpired`/`FileNotFoundError`). -/
def curlFetchAux : Nat → List (Option (Int × String)) → Option String
  | 0, _ => none
  | _ + 1, [] => none
  | n + 1, a :: rest =>
    match a with
    | some (rc, out) =>
      if attemptAccept rc out then some out else curlFetchAux n rest
    | none => curlFetchAux n rest

/-- The `curl_fetch`: up to 3 attempts, returning the first accepted body. -/
def curlFetch (attempts : List (Option (Int × String))) : Option String :=
  curlFetchAux 3 attempts

/-- The `fetch_section` (`fetch_section_text.py`, lines 431–440) writes the
section cache file iff `curl_fetch` returned a body, with that body as
content. -/
def fetchSectionCacheWrite (attempts : List (Option (Int × String))) :
    Option String :=
  match curlFetch attempts with
  | some html => some html
  | none => none

/-! C8/C10 — `RateLimiter` (`pipeline/utils/rate_limiter.py`).

The monotonic clock is an explicit argument; `wait` returns the slept
duration together with the new state, and records `now + sleep` (the
monotonic time after sleeping) in the deque. -/

/-- A `RateLimiter`: sustained rate, burst size, and the timestamp deque
(front = oldest). -/
structure RL where
  rate : ℚ
  burst : Nat
  timestamps : List ℚ

/-- The `RateLimiter.wait` at monotonic time `now`: expel timestamps older
than the window `1/rate * burst`, sleep until `timestamps[0] + window`
when the deque is full, and append the post-sleep monotonic time. -/
def RLwait (st : RL) (now : ℚ) : ℚ × RL :=
  let window : ℚ := 1 / st.rate * (st.burst : ℚ)
  let ts := st.timestamps.dropWhile (fun t => decide (window < now - t))
  let sleep : ℚ :=
    if st.burst ≤ ts.length then max 0 (ts.headD 0 + window - now) else 0
  (sleep, ⟨st.rate, st.burst, ts ++ [now + sleep]⟩)

/-- Iterate `wait` over a list of invocation times, collecting the slept
durations. -/
def runWaits (st : RL) : List ℚ → RL × List ℚ
  | [] => (st, [])
  | t :: ts =>
    let p := RLwait st t
    let r := runWaits p.2 ts
    (r.1, p.1 :: r.2)

/-! The `_SECTION_PATTERNS` of `extract_sections_from_soup`
(`pipeline/ingestion/official_website.py`, lines 1481–1500).

Each Python pattern is compiled with `re.DOTALL` and applied with
`re.match` (anchored at the start).  Every pattern ends in two capture
groups, and the greedy/backtracking behaviour of each pattern is encoded
as a deterministic parser: for a quantified class run followed by a
separator class, the engine takes the longest class run whose following
character is a separator (the only productive backtracking, since the
class and separator alphabets overlap only on `.`, `-`, `:`). -/

/-- The `[\d\-\.a-zA-Z:]` (patterns 1, 2, 5). -/
def isNumChar (c : Char) : Bool :=
  c.isDigit || c = '-' || c = '.' || c.isAlpha || c = ':'

/-- The `[.\-–—:\s]` — the separator class between number and heading. -/
def isSepChar (c : Char) : Bool :=
  c = '.' || c = '-' || c.toNat = 0x2013 || c.toNat = 0x2014 || c = ':' ||
    isPySpace c

/-- The `[\d\-a-zA-Z:]` (pattern 4, no dot). -/
def isNumCharNH (c : Char) : Bool :=
  c.isDigit || c = '-' || c.isAlpha || c = ':'

/-- The `[\d\-\.a-zA-Z]` (patterns 7, 9, no colon). -/
def isNumCharNC (c : Char) : Bool :=
  c.isDigit || c = '-' || c = '.' || c.isAlpha

/-- The `[\s  �]` (pattern 3's second separator). -/
def isNrsSep (c : Char) : Bool :=
  isPySpace c || c.toNat = 0xfffd

/-- The `[.\s]` (pattern 8's separator). -/
def isDotWs (c : Char) : Bool :=
  c = '.' || isPySpace c

/-- Largest `k` with `minK ≤ k ≤ length of the initial cls-run` such that
the character at index `k` is a separator: the split point the greedy
regex engine settles on for `([cls]+)\s*[sep]+` (or the `*` variant when
`minK = 0`, the separator class containing `\s`). -/
def findSplit (cls sep : Char → Bool) (minK : Nat) (cs : List Char) :
    Option Nat :=
  ((List.range ((cs.takeWhile cls).length + 1)).reverse).find?
    (fun k => minK ≤ k &&
      (match cs.get? k with
       | some c => sep c
       | none => false))

/-- Parse `([cls]+)\s*[sep]+(.*)` (with `\s` contained in `sep`):
group 1 and group 2 on success. -/
def numSep (cls sep : Char → Bool) (cs : List Char) :
    Option (List Char × List Char) :=
  match findSplit cls sep 1 cs with
  | none => none
  | some k => some (cs.take k, (cs.drop k).dropWhile sep)

/-- Match a literal and return the remainder. -/
def matchLit (lit cs : List Char) : Option (List Char) :=
  if lit.isPrefixOf cs then some (cs.drop lit.length) else none

/-- Pattern 1: `(?:§+\s*)([\d\-\.a-zA-Z:]+)\s*[.\-–—:\s]+(.*)`. -/
def pat1 (cs : List Char) : Option (List Char × List Char) :=
  if (cs.takeWhile (fun c => c.toNat = 0xa7)).isEmpty then none
  else
    numSep isNumChar isSepChar
      ((cs.dropWhile (fun c => c.toNat = 0xa7)).dropWhile isPySpace)

/-- Pattern 2: `SECTION\s+([\d\-\.a-zA-Z:]+)\s*[.\-–—:\s]+(.*)`. -/
def pat2 (cs : List Char) : Option (List Char × List Char) :=
  match matchLit "SECTION".data cs with
  | none => none
  | some r =>
    if (r.takeWhile isPySpace).isEmpty then none
    else numSep isNumChar isSepChar (r.dropWhile isPySpace)

/-- Shared tail of pattern 3 after the digits/dots run: require at least
one `[\s  �]`, then a group 2 starting with `[A-Za-z]`. -/
def nrsTail (g1 r : List Char) : Option (List Char × List Char) :=
  if (r.takeWhile isNrsSep).isEmpty then none
  else
    match r.dropWhile isNrsSep with
    | c :: rest => if c.isAlpha then some (g1, c :: rest) else none
    | [] => none

/-- Pattern 3: `NRS[\s  ]+([\d\.]+[A-Z]?)[\s  �]+([A-Za-z].*)`. -/
def pat3 (cs : List Char) : Option (List Char × List Char) :=
  match matchLit "NRS".data cs with
  | none => none
  | some r =>
    if (r.takeWhile isPySpace).isEmpty then none
    else
      let r := r.dropWhile isPySpace
      let digs := r.takeWhile (fun c => c.isDigit || c = '.')
      if digs.isEmpty then none
      else
        match r.drop digs.length with
        | c :: rest =>
          if c.isUpper then
            (nrsTail (digs ++ [c]) rest).orElse
              (fun _ => nrsTail digs (c :: rest))
          else nrsTail digs (c :: rest)
        | [] => nrsTail digs []

/-- Pattern 4: `Section:\s+([\d\-a-zA-Z:]+)\s+(.*)`. -/
def pat4 (cs : List Char) : Option (List Char × List Char) :=
  match matchLit "Section:".data cs with
  | none => none
  | some r =>
    if (r.takeWhile isPySpace).isEmpty then none
    else
      let r := r.dropWhile isPySpace
      let run := r.takeWhile isNumCharNH
      if run.isEmpty then none
      else
        let r2 := r.drop run.length
        if (r2.takeWhile isPySpace).isEmpty then none
        else some (run, r2.dropWhile isPySpace)

/-- The common `\.?\s*([cls]+)\s*[sep]+(.*)` tail of patterns 5 and 9,
with the optional word (`tion` / `icle`) and optional dot tried greedily
and backtracked on failure. -/
def optWordDotNum (word : List Char) (cls : Char → Bool) (r : List Char) :
    Option (List Char × List Char) :=
  let core := fun (s : List Char) => numSep cls isSepChar (s.dropWhile isPySpace)
  let dotAlt := fun (s : List Char) =>
    match s with
    | '.' :: rest => (core rest).orElse (fun _ => core s)
    | _ => core s
  match matchLit word r with
  | some r2 => (dotAlt r2).orElse (fun _ => dotAlt r)
  | none => dotAlt r

/-- Pattern 5: `Sec(?:tion)?\.?\s*([\d\-\.a-zA-Z:]+)\s*[.\-–—:\s]+(.*)`. -/
def pat5 (cs : List Char) : Option (List Char × List Char) :=
  match matchLit "Sec".data cs with
  | none => none
  | some r => optWordDotNum "tion".data isNumChar r

/-- Pattern 6: `\.([\d]+-[\d]+[a-zA-Z]?)\s+(.*)`. -/
def pat6 (cs : List Char) : Option (List Char × List Char) :=
  match cs with
  | '.' :: r =>
    let d1 := r.takeWhile Char.isDigit
    if d1.isEmpty then none
    else
      match r.drop d1.length with
      | '-' :: r2 =>
        let d2 := r2.takeWhile Char.isDigit
        if d2.isEmpty then none
        else
          let r3 := r2.drop d2.length
          let withLetter : Option (List Char × List Char) :=
            match r3 with
            | c :: r4 =>
              if c.isAlpha then
                (if (r4.takeWhile isPySpace).isEmpty then none
                 else some (d1 ++ '-' :: d2 ++ [c], r4.dropWhile isPySpace))
              else none
            | [] => none
          withLetter.orElse (fun _ =>
            if (r3.takeWhile isPySpace).isEmpty then none
            else some (d1 ++ '-' :: d2, r3.dropWhile isPySpace))
      | _ => none
  | _ => none

/-- Pattern 7: `^([\d]+[\-\.]\d[\d\-\.a-zA-Z]*)\s*[.\-–—:\s]+(.*)`. -/
def pat7 (cs : List Char) : Option (List Char × List Char) :=
  let d1 := cs.takeWhile Char.isDigit
  if d1.isEmpty then none
  else
    match cs.drop d1.length with
    | c :: r2 =>
      if c = '-' || c = '.' then
        match r2 with
        | d :: r3 =>
          if d.isDigit then
            match findSplit isNumCharNC isSepChar 0 r3 with
            | some k =>
              some (d1 ++ c :: d :: r3.take k, (r3.drop k).dropWhile isSepChar)
            | none => none
          else none
        | [] => none
      else none
    | [] => none

/-- Pattern 8: `^(\d{1,3}\.\d{3,}[a-zA-Z]?)\s*[.\s]+(.*)`. -/
def pat8 (cs : List Char) : Option (List Char × List Char) :=
  let d1 := cs.takeWhile Char.isDigit
  if d1.isEmpty || 3 < d1.length then none
  else
    match cs.drop d1.length with
    | '.' :: r2 =>
      let d2 := r2.takeWhile Char.isDigit
      if d2.length < 3 then none
      else
        let r3 := r2.drop d2.length
        let withLetter : Option (List Char × List Char) :=
          match r3 with
          | c :: r4 =>
            if c.isAlpha then
              (if (r4.takeWhile isDotWs).isEmpty then none
               else some (d1 ++ '.' :: d2 ++ [c], r4.dropWhile isDotWs))
            else none
          | [] => none
        withLetter.orElse (fun _ =>
          if (r3.takeWhile isDotWs).isEmpty then none
          else some (d1 ++ '.' :: d2, r3.dropWhile isDotWs))
    | _ => none

/-- Pattern 9: `Art(?:icle)?\.?\s*([\d\-\.a-zA-Z]+)\s*[.\-–—:\s]+(.*)`. -/
def pat9 (cs : List Char) : Option (List Char × List Char) :=
  match matchLit "Art".data cs with
  | none => none
  | some r => optWordDotNum "icle".data isNumCharNC r

/-- The fixed-priority pattern loop: the first pattern in `_SECTION_PATTERNS`
that matches determines the `(number token, remainder)` split. -/
def firstPatMatch (s : String) : Option (String × String) :=
  let cs := s.data
  (((((((((pat1 cs).orElse (fun _ => pat2 cs)).orElse
    (fun _ => pat3 cs)).orElse (fun _ => pat4 cs)).orElse
    (fun _ => pat5 cs)).orElse (fun _ => pat6 cs)).orElse
    (fun _ => pat7 cs)).orElse (fun _ => pat8 cs)).orElse
    (fun _ => pat9 cs)).map
    (fun p => (String.mk p.1, String.mk p.2))

/-! `clean_text` (`pipeline/normalization/text_cleaner.py`). -/

/-- Driver for `re.sub`: scan left to right, replacing each non-overlapping
match of `m` (which consumes at least one character) by `repl` and
continuing after it.  Fuel is the input length; every matcher used below
consumes at least one character, so the fuel never runs out. -/
def substAux (m : List Char → Option (List Char)) (repl : List Char) :
    Nat → List Char → List Char
  | 0, cs => cs
  | _ + 1, [] => []
  | n + 1, c :: rest =>
    match m (c :: rest) with
    | some r => repl ++ substAux m repl n r
    | none => c :: substAux m repl n rest

/-- The `re.sub(pattern, repl, ·)` for a matcher consuming ≥ 1 character. -/
def subst (m : List Char → Option (List Char)) (repl : List Char)
    (cs : List Char) : List Char :=
  substAux m repl cs.length cs

/-- Matcher for `<br\s*/?>` (IGNORECASE). -/
def matchBr (cs : List Char) : Option (List Char) :=
  match cs with
  | '<' :: c1 :: c2 :: r =>
    if (c1 = 'b' || c1 = 'B') && (c2 = 'r' || c2 = 'R') then
      match r.dropWhile isPySpace with
      | '/' :: '>' :: rest => some rest
      | '>' :: rest => some rest
      | _ => none
    else none
  | _ => none

/-- Matcher for `<p\b[^>]*>` (IGNORECASE). -/
def matchPOpen (cs : List Char) : Option (List Char) :=
  match cs with
  | '<' :: c1 :: r =>
    if c1 = 'p' || c1 = 'P' then
      match r with
      | c :: _ =>
        if isWordChar c then none
        else
          match r.drop (r.takeWhile (fun x => x ≠ '>')).length with
          | '>' :: rest => some rest
          | _ => none
      | [] => none
    else none
  | _ => none

/-- Matcher for `</p>` (IGNORECASE). -/
def matchPClose (cs : List Char) : Option (List Char) :=
  match cs with
  | '<' :: '/' :: c1 :: '>' :: rest =>
    if c1 = 'p' || c1 = 'P' then some rest else none
  | _ => none

/-- Matcher for `<[^>]+>`. -/
def matchTag (cs : List Char) : Option (List Char) :=
  match cs with
  | '<' :: r =>
    let run := r.takeWhile (fun x => x ≠ '>')
    if run.isEmpty then none
    else
      match r.drop run.length with
      | '>' :: rest => some rest
      | _ => none
  | _ => none

/-- Scanner for `html.unescape`: decode each reference in place. -/
def unescapeAux (m : List Char → Option (Char × List Char)) :
    Nat → List Char → List Char
  | 0, cs => cs
  | _ + 1, [] => []
  | n + 1, c :: rest =>
    match m (c :: rest) with
    | some (d, r) => d :: unescapeAux m n r
    | none => c :: unescapeAux m n rest

/-- Model of `html.unescape` on the numeric references and the named
entities that occur in statute markup (tag stripping has already removed
angle brackets, so only freestanding references remain). -/
def unescapeHtml : List Char → List Char :=
  let named : List (List Char × Char) :=
    [("amp".data, '&'), ("lt".data, '<'), ("gt".data, '>'),
     ("quot".data, '"'), ("apos".data, Char.ofNat 39), ("nbsp".data, ' '),
     ("sect".data, '§'), ("ndash".data, '–'), ("mdash".data, '—')]
  let m : List Char → Option (Char × List Char) := fun cs =>
    match cs with
    | '&' :: '#' :: r =>
      let digs := r.takeWhile Char.isDigit
      (match r.drop digs.length with
       | ';' :: rest =>
         if digs.isEmpty then none
         else some (Char.ofNat (String.mk digs).toNat!, rest)
       | _ => none)
    | '&' :: r =>
      named.findSome? (fun p =>
        match matchLit (p.1 ++ [';']) r with
        | some rest => some (p.2, rest)
        | none => none)
    | _ => none
  fun cs => unescapeAux m cs.length cs

/-- The `strip_html`: the four `re.sub` passes then entity decoding. -/
def strip_html (cs : List Char) : List Char :=
  unescapeHtml (subst matchTag []
    (subst matchPClose []
      (subst matchPOpen "\n\n".data
        (subst matchBr "\n".data cs))))

/-- Matcher for ` *\n *`. -/
def matchSpNlSp (cs : List Char) : Option (List Char) :=
  let sp := cs.takeWhile (fun c => c = ' ')
  match cs.drop sp.length with
  | '\n' :: rest => some (rest.dropWhile (fun c => c = ' '))
  | _ => none

/-- Matcher for `\n{3,}`. -/
def matchNl3 (cs : List Char) : Option (List Char) :=
  let run := cs.takeWhile (fun c => c = '\n')
  if run.length < 3 then none else some (cs.drop run.length)

/-- The `normalize_whitespace`: collapse `[ \t]+` to one space, trim spaces
around newlines, cap blank runs at one empty line, strip. -/
def normalize_whitespace (cs : List Char) : List Char :=
  pyStripL (subst matchNl3 "\n\n".data
    (subst matchSpNlSp "\n".data
      (collapseRuns (fun c => c = ' ' || c = '\t') ' ' cs)))

/-- The `clean_text`: `strip_html` then `normalize_whitespace`. -/
def clean_text (s : String) : String :=
  String.mk (normalize_whitespace (strip_html s.data))

/-! The extraction engine `extract_sections_from_soup`
(`pipeline/ingestion/official_website.py`, lines 1472–1569).

A document is the ordered list of its elements; each element carries its
tag name and its `get_text(strip=True)` text.  `find_all` on a flat
element list is a tag filter in document order, and `find_next_sibling`
steps to the next element. -/

/-- One markup element: tag name and extracted text. -/
structure Elem where
  tag : String
  text : String
  deriving Repr, DecidableEq

/-- The tag list of the strategy-1 `find_all`. -/
def blockTags : List String :=
  ["p", "div", "li", "span", "td", "h2", "h3", "h4", "h5", "dt", "dd",
   "b", "strong", "a"]

/-- The heading tags of strategy 2 (and its sibling-walk stop set). -/
def headingTags : List String :=
  ["h1", "h2", "h3", "h4", "h5"]

/-- The `rest.split("\n", 1)`: text before the first newline, and the rest when
a newline exists. -/
def splitFirstNL (cs : List Char) : List Char × Option (List Char) :=
  let pre := cs.takeWhile (fun c => c ≠ '\n')
  match cs.drop pre.length with
  | [] => (pre, none)
  | _ :: rest => (pre, some rest)

/-- The `heading.find(".", 30)`: index of the first `.` at position ≥ 30. -/
def findDotFrom (start : Nat) (cs : List Char) : Option Nat :=
  (List.range cs.length).find? (fun i =>
    start ≤ i &&
      (match cs.get? i with
       | some c => c = '.'
       | none => false))

/-- The body of strategy 1's per-element loop (lines 1502–1535): match the
first pattern, validate and deduplicate the number, split heading and
body, fold an over-long run-together heading back into the body, and
append the built `Section`.  The state is `(sections, seen)`. -/
def strat1Step (st : List Section × List String) (e : Elem) :
    List Section × List String :=
  if blockTags.contains e.tag then
    if e.text = "" ∨ e.text.length < 5 then st
    else
      match firstPatMatch e.text with
      | none => st
      | some (g1, g2) =>
        let num := clean_section_number g1
        if num = "" ∨ st.2.contains num then st
        else if 30 < num.length then st
        else
          let lines := splitFirstNL g2.data
          let heading0 := (pyStripL lines.1).take 300
          let body0 :=
            match lines.2 with
            | some l2 => pyStripL l2
            | none => []
          let hb :=
            if 150 < heading0.length then
              match findDotFrom 30 heading0 with
              | some dot =>
                (heading0.take dot,
                 pyStripL (heading0.drop (dot + 1)) ++
                   (if body0.isEmpty then [] else '\n' :: body0))
              | none => (heading0, body0)
            else (heading0, body0)
          let sec : Section :=
            { id := "section-" ++ slugify num
              number := num
              heading := String.mk hb.1
              text := clean_text
                (if hb.2.isEmpty then g2 else String.mk hb.2) }
          (st.1 ++ [sec], st.2 ++ [num])
  else st

/-- Strategy 1 over the whole document. -/
def strat1 (doc : List Elem) : List Section × List String :=
  doc.foldl strat1Step ([], [])

/-- The sibling walk of strategy 2 (lines 1551–1559): collect non-empty
texts of following elements until the next heading element, breaking once
more than 50 parts are collected. -/
def collectSibs : List Elem → List String → List String
  | [], acc => acc
  | e :: rest, acc =>
    if headingTags.contains e.tag then acc
    else
      let acc := if e.text ≠ "" then acc ++ [e.text] else acc
      if 50 < acc.length then acc else collectSibs rest acc

/-- Strategy 2 (lines 1538–1567): scan heading elements for the same
patterns, the heading being group 2 and the body the sibling texts. -/
def strat2 : List Elem → List String → List Section
  | [], _ => []
  | e :: rest, seen =>
    if headingTags.contains e.tag then
      match firstPatMatch e.text with
      | some (g1, g2) =>
        let num := clean_section_number g1
        if num = "" ∨ seen.contains num ∨ 30 < num.length then
          strat2 rest seen
        else
          let sec : Section :=
            { id := "section-" ++ slugify num
              number := num
              heading := String.mk ((pyStripL g2.data).take 300)
              text := clean_text
                (String.intercalate "\n\n" (collectSibs rest [])) }
          sec :: strat2 rest (seen ++ [num])
      | none => strat2 rest seen
    else strat2 rest seen

/-- The `extract_sections_from_soup`: strategy 1, falling back to strategy 2
when it produced nothing (the `seen` set is shared). -/
def extract_sections_from_soup (doc : List Elem) : List Section :=
  let p := strat1 doc
  if p.1.isEmpty then strat2 doc p.2 else p.1

/-! C9 — the parse skeletons that drop empty nodes.

`JustiaIngestor.parse` (`pipeline/ingestion/justia.py`, lines 85–113,
189–279) and `OfficialWebsiteIngestor._generic_parse`
(`pipeline/ingestion/official_website.py`, lines 122–175).  The file
system is the input: each title directory carries its name, its chapter
files (stem plus the sections the extraction engine recovers from the
file), and its optional index page. -/

/-- The `(\d+[a-zA-Z]*)`: leading digits then trailing letters. -/
def digitsLetters (cs : List Char) : Option (List Char) :=
  let d := cs.takeWhile Char.isDigit
  if d.isEmpty then none
  else some (d ++ (cs.drop d.length).takeWhile (fun c => c.isAlpha))

/-- The `re.match(r"(?:word-?)?(\d+[a-zA-Z]*)", stem)`, returning group 1. -/
def optPrefixNum (word stem : String) : Option String :=
  (((matchLit (word ++ "-").data stem.data).bind digitsLetters).orElse
    (fun _ => ((matchLit word.data stem.data).bind digitsLetters).orElse
      (fun _ => digitsLetters stem.data))).map String.mk

/-- Python `str.title()` on the ASCII range: a letter is upper-cased when
the previous character is not a letter, lower-cased otherwise. -/
def pyTitle (cs : List Char) : List Char :=
  (cs.foldl
    (fun (acc : List Char × Bool) c =>
      if c.isAlpha then (acc.1 ++ [if acc.2 then c.toLower else c.toUpper], true)
      else (acc.1 ++ [c], false))
    ([], false)).1

/-- The `name.replace("-", " ").title()`. -/
def titleize (s : String) : String :=
  String.mk (pyTitle (s.data.map (fun c => if c = '-' then ' ' else c)))

/-- One chapter HTML file as `JustiaIngestor._parse_chapter_file` sees it:
its stem, the `h1`/`h2` heading (empty when absent), and the sections the
extraction step recovers from it. -/
structure ChapterFileData where
  stem : String
  heading : String
  sections : List Section
  deriving Repr, DecidableEq

/-- One title directory as `JustiaIngestor._parse_title_dir` sees it. -/
structure TitleDirData where
  name : String
  indexExists : Bool
  indexHeading : String
  chapterFiles : List ChapterFileData
  indexSections : List Section
  deriving Repr, DecidableEq

/-- The `JustiaIngestor._parse_chapter_file`: `None` when no sections were
extracted, otherwise a `Chapter` with the number recovered from the stem. -/
def parse_chapter_file (f : ChapterFileData) : Option Chapter :=
  if f.sections.isEmpty then none
  else
    let ch_num :=
      match optPrefixNum "chapter" f.stem with
      | some g => g
      | none => f.stem
    some
      { id := "chapter-" ++ slugify f.stem
        number := ch_num
        heading := if f.heading = "" then "Chapter " ++ ch_num else f.heading
        sections := f.sections }

/-- The `chapters` local of `JustiaIngestor._parse_title_dir`: the parsed
chapter files, falling back to the sections extracted from the index page
when no chapter file yielded anything. -/
def titleDirChapters (d : TitleDirData) : List Chapter :=
  let chapters := d.chapterFiles.filterMap parse_chapter_file
  if chapters.isEmpty ∧ d.indexExists then
    if d.indexSections.isEmpty then chapters
    else
      [{ id := "chapter-" ++ d.name
         number := d.name
         heading :=
           if d.indexHeading = "" then "Chapter " ++ d.name
           else d.indexHeading
         sections := d.indexSections }]
  else chapters

/-- The `JustiaIngestor._parse_title_dir`: `None` when no chapter survived,
otherwise a `Title` with the display number recovered from the slug. -/
def parse_title_dir (d : TitleDirData) : Option Title :=
  if (titleDirChapters d).isEmpty then none
  else
    let display0 :=
      pyStrip (String.mk (d.name.data.map (fun c => if c = '-' then ' ' else c)))
    let display :=
      match optPrefixNum "title" d.name with
      | some g => g
      | none => display0
    some
      { id := "title-" ++ d.name
        number := display
        heading :=
          if d.indexHeading = "" then "Title " ++ display else d.indexHeading
        chapters := titleDirChapters d }

/-- The title loop of `JustiaIngestor.parse`: keep a parsed title only if
it exists and has chapters. -/
def justia_parse (dirs : List TitleDirData) : List Title :=
  (dirs.filterMap parse_title_dir).filter (fun t => !t.chapters.isEmpty)

/-- One title directory as `_generic_parse` sees it: the non-index files
(stem with extracted sections) and the optional index page. -/
structure GenTitleDir where
  name : String
  files : List (String × List Section)
  indexExists : Bool
  indexSections : List Section
  deriving Repr, DecidableEq

/-- The per-file chapter of `_generic_parse`: dropped when the file
yielded no sections. -/
def genFileChapter (f : String × List Section) : Option Chapter :=
  if f.2.isEmpty then none
  else some
    { id := "chapter-" ++ f.1
      number := f.1
      heading := titleize f.1
      sections := f.2 }

/-- The `chapters` local of `_generic_parse` for one title directory:
chapters from files, with the index page as fallback when none survived. -/
def genDirChapters (d : GenTitleDir) : List Chapter :=
  let chapters := d.files.filterMap genFileChapter
  if d.indexExists ∧ chapters.isEmpty then
    if d.indexSections.isEmpty then chapters
    else
      chapters ++
        [{ id := "chapter-" ++ d.name
           number := d.name
           heading := titleize d.name
           sections := d.indexSections }]
  else chapters

/-- One directory of `_generic_parse`: dropped when no chapter survived. -/
def genDirTitle (d : GenTitleDir) : Option Title :=
  if (genDirChapters d).isEmpty then none
  else some
    { id := "title-" ++ d.name
      number := d.name
      heading := titleize d.name
      chapters := genDirChapters d }

/-- One flat HTML file of `_generic_parse`: a single-chapter title,
dropped when the file yielded no sections. -/
def genFlatTitle (f : String × List Section) : Option Title :=
  if f.2.isEmpty then none
  else some
    { id := "title-" ++ f.1
      number := f.1
      heading := titleize f.1
      chapters :=
        [{ id := "chapter-" ++ f.1
           number := f.1
           heading := titleize f.1
           sections := f.2 }] }

/-- The `OfficialWebsiteIngestor._generic_parse`: directories become titles of
chapters (one per file that yielded sections, with an index-page fallback),
flat files become single-chapter titles; files and directories that yield
no sections are dropped. -/
def generic_parse (dirs : List GenTitleDir)
    (flat : List (String × List Section)) : List Title :=
  dirs.filterMap genDirTitle ++ flat.filterMap genFlatTitle

/-! Theorems -/

/-- C1: in the merge performed by `update_content_json_direct`, the stored
text is replaced if and only if the incoming text is non-empty and
strictly longer than the stored text; merging a text with itself leaves
the record unchanged, and an empty incoming text never clears stored
text. -/
theorem C1_merge_rule (s : Section) (m : FetchedSec) :
    (m.text ≠ "" ∧ s.text.length < m.text.length →
      (applyCandidate s m).text = m.text)
    ∧ ((applyCandidate s m).text ≠ s.text →
      m.text ≠ "" ∧ s.text.length < m.text.length ∧
        (applyCandidate s m).text = m.text)
    ∧ (¬(m.text ≠ "" ∧ s.text.length < m.text.length) →
      applyCandidate s m = s)
    ∧ (∀ u h, applyCandidate s ⟨u, h, s.text⟩ = s)
    ∧ (∀ u h, applyCandidate s ⟨u, h, ""⟩ = s) := by
  refine ⟨?_, ?_, ?_, ?_, ?_⟩
  · intro h
    simp only [applyCandidate, if_pos h]
  · intro h
    by_cases hc : m.text ≠ "" ∧ s.text.length < m.text.length
    · exact ⟨hc.1, hc.2, by simp only [applyCandidate, if_pos hc]⟩
    · exact absurd (by simp only [applyCandidate, if_neg hc]) h
  · intro h
    simp only [applyCandidate, if_neg h]
  · intro u h
    simp only [applyCandidate]
    rw [if_neg]
    rintro ⟨-, hlt⟩
    exact lt_irrefl _ hlt
  · intro u h
    simp only [applyCandidate]
    rw [if_neg]
    rintro ⟨hne, -⟩
    exact hne rfl

/-- C1 witness: a strictly longer non-empty candidate replaces the stored
text at a concrete input. -/
theorem C1_merge_rule_witness :
    (applyCandidate ⟨"section-1-1", "1-1", "h", "ab", "", ""⟩
      ⟨"u", "h2", "abcd"⟩).text = "abcd" :=
  (C1_merge_rule ⟨"section-1-1", "1-1", "h", "ab", "", ""⟩
    ⟨"u", "h2", "abcd"⟩).1 (by decide)

/-- C4: `put(url, body)` followed by `get_cached(url)` returns exactly
`body` while the entry's age is within the TTL; once the age exceeds the
TTL, `get_cached` returns `none` and `fetch` performs the real
(rate-limited) request instead of serving the cache. -/
theorem C4_cache_roundtrip (hash : String → String) (st : CacheState)
    (url body : String) (tPut tGet : Nat) :
    (tGet - tPut ≤ st.ttl →
      cacheGet hash (cachePut hash st tPut url body) tGet url = some body)
    ∧ (st.ttl < tGet - tPut →
      cacheGet hash (cachePut hash st tPut url body) tGet url = none
      ∧ ∀ status respBody, status < 400 →
          cacheFetch hash (cachePut hash st tPut url body) tGet url status
              respBody
            = .ok (respBody,
                cachePut hash (cachePut hash st tPut url body) tGet url
                  respBody,
                true)) := by
  have hlk : (((hash url, (⟨body, tPut⟩ : CacheEntry)) :: st.entries)).lookup
      (hash url) = some ⟨body, tPut⟩ := by
    simp [List.lookup]
  constructor
  · intro h
    simp only [cacheGet, cachePut, hlk]
    rw [if_neg (by omega)]
  · intro h
    have hg : cacheGet hash (cachePut hash st tPut url body) tGet url
        = none := by
      simp only [cacheGet, cachePut, hlk]
      rw [if_pos (by omega)]
    refine ⟨hg, ?_⟩
    intro status respBody hst
    simp only [cacheFetch, hg]
    rw [if_neg (by omega)]

/-- C4 witness: with TTL 100, a body put at time 0 is served at time 50
and gone at time 201, where a real fetch happens. -/
theorem C4_cache_roundtrip_witness :
    cacheGet (fun u => u) (cachePut (fun u => u) ⟨100, []⟩ 0 "u" "b") 50 "u"
      = some "b"
    ∧ cacheGet (fun u => u) (cachePut (fun u => u) ⟨100, []⟩ 0 "u" "b") 201 "u"
      = none
    ∧ cacheFetch (fun u => u) (cachePut (fun u => u) ⟨100, []⟩ 0 "u" "b")
        201 "u" 200 "b2"
      = .ok ("b2",
          cachePut (fun u => u)
            (cachePut (fun u => u) ⟨100, []⟩ 0 "u" "b") 201 "u" "b2",
          true) :=
  ⟨(C4_cache_roundtrip (fun u => u) ⟨100, []⟩ "u" "b" 0 50).1 (by decide),
   ((C4_cache_roundtrip (fun u => u) ⟨100, []⟩ "u" "b" 0 201).2
     (by decide)).1,
   ((C4_cache_roundtrip (fun u => u) ⟨100, []⟩ "u" "b" 0 201).2
     (by decide)).2 200 "b2" (by decide)⟩

/-- C3 counterexample: `HttpCache.fetch` performs no challenge scanning —
a 200 response whose whole body is the challenge marker `Just a moment...`
(short, and matching a marker) is returned as a success and written to the
cache. -/
theorem C3_counterexample :
    (cacheFetch (fun u => u) ⟨604800, []⟩ 0 "https://x" 200
        "Just a moment...").toOption
      = some ("Just a moment...",
          cachePut (fun u => u) ⟨604800, []⟩ 0 "https://x" "Just a moment...",
          true)
    ∧ strIn "Just a moment" "Just a moment..." = true
    ∧ ("Just a moment..." : String).length ≤ 500 := by
  decide

/-- C3 (amended): the challenge scanning lives in `curl_fetch` of the
section-text fetcher, not in `HttpCache.fetch`: any body `curl_fetch`
returns — and hence anything `fetch_section` writes to the section cache —
is longer than 500 characters and carries no challenge marker in its first
2000 characters; challenge or short bodies make the attempt fail and the
loop retry. -/
theorem C3_curl_fetch_filters (attempts : List (Option (Int × String)))
    (out : String) (h : curlFetch attempts = some out) :
    500 < out.length
    ∧ (∀ m ∈ challengeMarkers,
        strIn m (String.mk (out.data.take 2000)) = false)
    ∧ fetchSectionCacheWrite attempts = some out := by
  have key : ∀ n l o, curlFetchAux n l = some o →
      500 < o.length
      ∧ ∀ m ∈ challengeMarkers,
          strIn m (String.mk (o.data.take 2000)) = false := by
    intro n
    induction n with
    | zero => intro l o h; simp [curlFetchAux] at h
    | succ k ih =>
      intro l o h
      match l with
      | [] => simp [curlFetchAux] at h
      | none :: rest => exact ih rest o (by simpa [curlFetchAux] using h)
      | some (rc, s) :: rest =>
        simp only [curlFetchAux] at h
        by_cases hacc : attemptAccept rc s
        · rw [if_pos hacc] at h
          obtain rfl : s = o := by injection h
          have := hacc
          simp only [attemptAccept, Bool.and_eq_true, Bool.not_eq_true',
            decide_eq_true_eq] at this
          refine ⟨this.1.2, ?_⟩
          intro m hm
          have hany := this.2
          rw [List.any_eq_false] at hany
          simpa using hany m hm
        · rw [if_neg hacc] at h
          exact ih rest o h
  obtain ⟨h1, h2⟩ := key 3 attempts out h
  exact ⟨h1, h2, by simp [fetchSectionCacheWrite, h]⟩

set_option maxRecDepth 20000 in
/-- C3 witness: a 501-character clean body is accepted on the first
attempt and is what lands in the section cache. -/
theorem C3_curl_fetch_filters_witness :
    500 < (String.mk (List.replicate 501 'a')).length
    ∧ (∀ m ∈ challengeMarkers,
        strIn m
          (String.mk ((String.mk (List.replicate 501 'a')).data.take 2000))
          = false)
    ∧ fetchSectionCacheWrite [some (0, String.mk (List.replicate 501 'a'))]
        = some (String.mk (List.replicate 501 'a')) :=
  C3_curl_fetch_filters [some (0, String.mk (List.replicate 501 'a'))]
    (String.mk (List.replicate 501 'a')) (by decide)

/-- C10: `RateLimiter.wait` always terminates (it is a total function of
the state and the clock), and with a monotonic clock the slept duration is
non-negative and never exceeds the window `1/rate * burst` (which equals
`burst / rate` seconds). -/
theorem C10_wait_bounded (st : RL) (now : ℚ) (hr : 0 < st.rate)
    (hb : 1 ≤ st.burst) (hmono : ∀ t ∈ st.timestamps, t ≤ now) :
    0 ≤ (RLwait st now).1
    ∧ (RLwait st now).1 ≤ 1 / st.rate * (st.burst : ℚ) := by
  have hw : 0 ≤ 1 / st.rate * (st.burst : ℚ) := by positivity
  constructor
  · simp only [RLwait]
    split
    · exact le_max_left 0 _
    · exact le_refl 0
  · simp only [RLwait]
    split
    · next hfull =>
      apply max_le hw
      rcases hts : st.timestamps.dropWhile
          (fun t => decide (1 / st.rate * (st.burst : ℚ) < now - t))
        with _ | ⟨a, l⟩
      · rw [hts] at hfull
        simp at hfull
        omega
      · have ha : a ∈ st.timestamps := by
          have hsub := List.dropWhile_sublist
            (fun t => decide (1 / st.rate * (st.burst : ℚ) < now - t))
            (l := st.timestamps)
          rw [hts] at hsub
          exact hsub.subset (List.mem_cons_self a l)
        have := hmono a ha
        simp only [List.headD_cons]
        linarith
    · exact hw

/-- C2 counterexample: on the document `§ 1-1-10. Short title. This
chapter shall be known as...` the engine returns one Section, but its
number is `1-1-10.` (the pattern's number class contains `.`, so the
greedy match keeps the trailing dot) and its heading is the entire
remainder (there is no line break, and at 46 characters the 150-character
heading fold-back does not fire), not `Short title.`. -/
theorem C2_counterexample :
    (extract_sections_from_soup
        [⟨"p", "§ 1-1-10. Short title. This chapter shall be known as..."⟩]).map
        Statutes.Section.number
      = ["1-1-10."]
    ∧ ("1-1-10." : String) ≠ "1-1-10"
    ∧ (extract_sections_from_soup
        [⟨"p", "§ 1-1-10. Short title. This chapter shall be known as..."⟩]).map
        Statutes.Section.heading
      = ["Short title. This chapter shall be known as..."]
    ∧ ("Short title. This chapter shall be known as..." : String)
      ≠ "Short title." := by
  decide

/-- C2 (amended): the document `§ 1-1-10. Short title. This chapter shall
be known as...` yields exactly one Section with id `section-1-1-10`,
number `1-1-10.`, and with both heading and body text equal to the full
remainder `Short title. This chapter shall be known as...` (the heading is
only split at a line break, and the period fold-back applies only past 150
characters). -/
theorem C2_amended :
    extract_sections_from_soup
        [⟨"p", "§ 1-1-10. Short title. This chapter shall be known as..."⟩]
      = [{ id := "section-1-1-10"
           number := "1-1-10."
           heading := "Short title. This chapter shall be known as..."
           text := "Short title. This chapter shall be known as..." }] := by
  decide

/-- Unfolding `runWaits` one call at a time. -/
theorem runWaits_cons (st : RL) (t : ℚ) (ts : List ℚ) :
    runWaits st (t :: ts)
      = ((runWaits (RLwait st t).2 ts).1,
         (RLwait st t).1 :: (runWaits (RLwait st t).2 ts).2) := rfl

/-- The sleeps list of `runWaits` has one entry per call. -/
theorem runWaits_sleeps_length (l : List ℚ) :
    ∀ st : RL, ((runWaits st l).2).length = l.length := by
  induction l with
  | nil => intro st; rfl
  | cons t ts ih => intro st; simp [runWaits_cons, ih]

/-- The `dropWhile` keeps the whole list when the head already fails. -/
theorem dropWhile_cons_false {p : ℚ → Bool} {a : ℚ} {l : List ℚ}
    (h : p a = false) : (a :: l).dropWhile p = a :: l := by
  simp [List.dropWhile, h]

/-- One `wait` step on a deque headed by `t0`, when `t0` is still inside
the window so nothing is expelled. -/
theorem RLwait_step (rate : ℚ) (burst : Nat) (t0 now : ℚ) (mid : List ℚ)
    (hdrop : ¬ (1 / rate * (burst : ℚ) < now - t0)) :
    RLwait ⟨rate, burst, t0 :: mid⟩ now =
      (if burst ≤ mid.length + 1
        then max 0 (t0 + 1 / rate * (burst : ℚ) - now) else 0,
       ⟨rate, burst, (t0 :: mid) ++
         [now + (if burst ≤ mid.length + 1
           then max 0 (t0 + 1 / rate * (burst : ℚ) - now) else 0)]⟩) := by
  simp only [RLwait]
  rw [dropWhile_cons_false (decide_eq_false hdrop)]
  simp [List.length_cons]

/-- The core of the burst argument: starting from a deque `t0 :: mid`, if
the calls-so-far plus the pending calls total `burst + 1` and every
pending call time is within the window of `t0`, the last pending call
sleeps a positive duration. -/
theorem RL_phase (rate : ℚ) (burst : Nat) (t0 : ℚ) :
    ∀ (rest mid : List ℚ),
      mid.length + 1 + rest.length = burst + 1 →
      (∀ x ∈ rest, x - t0 < 1 / rate * (burst : ℚ)) →
      rest ≠ [] →
      ∃ s, ((runWaits ⟨rate, burst, t0 :: mid⟩ rest).2).getLast? = some s
        ∧ 0 < s := by
  intro rest
  induction rest with
  | nil => intro mid _ _ hne; exact absurd rfl hne
  | cons r rs ih =>
    intro mid hlen hspan _
    have hdrop : ¬ (1 / rate * (burst : ℚ) < r - t0) := by
      have := hspan r (List.mem_cons_self r rs)
      linarith
    rcases rs with _ | ⟨r2, rs2⟩
    · have hfull : burst ≤ mid.length + 1 := by
        simp at hlen
        omega
      have hsleep : 0 < max 0 (t0 + 1 / rate * (burst : ℚ) - r) := by
        have hsp := hspan r (by simp)
        have hpos : 0 < t0 + 1 / rate * (burst : ℚ) - r := by linarith
        exact lt_of_lt_of_le hpos (le_max_right 0 _)
      refine ⟨max 0 (t0 + 1 / rate * (burst : ℚ) - r), ?_, hsleep⟩
      rw [runWaits_cons, RLwait_step rate burst t0 r mid hdrop,
        if_pos hfull]
      simp [runWaits]
    · have hmid : ¬ burst ≤ mid.length + 1 := by
        simp at hlen
        omega
      have hstep : RLwait ⟨rate, burst, t0 :: mid⟩ r
          = (0, ⟨rate, burst, t0 :: (mid ++ [r])⟩) := by
        rw [RLwait_step rate burst t0 r mid hdrop, if_neg hmid]
        simp
      obtain ⟨s, hs, hpos⟩ := ih (mid ++ [r])
        (by simp at hlen ⊢; omega)
        (fun x hx => hspan x (List.mem_cons_of_mem _ hx))
        (by simp)
      refine ⟨s, ?_, hpos⟩
      rw [runWaits_cons, hstep]
      dsimp only
      have hlen2 := runWaits_sleeps_length (r2 :: rs2)
        ⟨rate, burst, t0 :: (mid ++ [r])⟩
      rcases hcons : (runWaits ⟨rate, burst, t0 :: (mid ++ [r])⟩
          (r2 :: rs2)).2 with _ | ⟨b, bl⟩
      · rw [hcons] at hlen2
        simp at hlen2
      · rw [hcons] at hs
        rw [List.getLast?_cons_cons]
        exact hs

/-- C8: issuing `burst + 1` calls to `wait()` whose invocation times all
lie within a span shorter than `burst / rate` seconds makes the last call
observe a strictly positive blocking delay. -/
theorem C8_burst_plus_one_blocks (rate : ℚ) (burst : Nat) (t0 : ℚ)
    (rest : List ℚ) (hr : 0 < rate) (hb : 1 ≤ burst)
    (hlen : rest.length = burst)
    (hspan : ∀ x ∈ rest, x - t0 < (burst : ℚ) / rate) :
    ∃ s, ((runWaits ⟨rate, burst, []⟩ (t0 :: rest)).2).getLast? = some s
      ∧ 0 < s := by
  have hw : (burst : ℚ) / rate = 1 / rate * (burst : ℚ) := by ring
  have h1 : RLwait ⟨rate, burst, []⟩ t0 = (0, ⟨rate, burst, [t0]⟩) := by
    simp only [RLwait]
    rw [if_neg (by simp; omega)]
    simp
  obtain ⟨s, hs, hpos⟩ := RL_phase rate burst t0 rest []
    (by simp; omega)
    (by intro x hx; rw [← hw]; exact hspan x hx)
    (by intro he; rw [he] at hlen; simp at hlen; omega)
  refine ⟨s, ?_, hpos⟩
  rw [runWaits_cons, h1]
  dsimp only
  have hlen2 := runWaits_sleeps_length rest ⟨rate, burst, [t0]⟩
  rcases hcons : (runWaits ⟨rate, burst, [t0]⟩ rest).2 with _ | ⟨b, bl⟩
  · rw [hcons] at hlen2
    rw [hlen] at hlen2
    simp at hlen2
    omega
  · rw [hcons] at hs
    rw [List.getLast?_cons_cons]
    exact hs

/-- C8 witness: rate 2, burst 2 (the constructor defaults), three calls at
time 0 — span 0 is shorter than `burst / rate = 1` and the third call
sleeps a positive duration. -/
theorem C8_burst_plus_one_blocks_witness :
    ∃ s, ((runWaits ⟨2, 2, []⟩ (0 :: [0, 0])).2).getLast? = some s
      ∧ 0 < s :=
  C8_burst_plus_one_blocks 2 2 0 [0, 0] (by norm_num) (by norm_num) rfl
    (by intro x hx; fin_cases hx <;> norm_num)

/-- The shape every Section built by the extraction engine has: a
non-empty number of at most 30 characters, and an id that is `section-`
followed by the slug of that number. -/
def SecShape (s : Section) : Prop :=
  ∃ num hd tx, num ≠ "" ∧ num.length ≤ 30 ∧
    s = { id := "section-" ++ slugify num, number := num,
          heading := hd, text := tx }

/-- Each strategy-1 step either leaves the state unchanged or appends one
Section built from a fresh, valid number together with that number. -/
theorem strat1Step_cases (st : List Section × List String) (e : Elem) :
    strat1Step st e = st ∨
    ∃ num hd tx, num ≠ "" ∧ st.2.contains num = false ∧ num.length ≤ 30 ∧
      strat1Step st e =
        (st.1 ++ [{ id := "section-" ++ slugify num, number := num,
                    heading := hd, text := tx }],
         st.2 ++ [num]) := by
  unfold strat1Step
  by_cases h1 : blockTags.contains e.tag
  case neg => rw [if_neg h1]; exact .inl rfl
  rw [if_pos h1]
  by_cases h2 : e.text = "" ∨ e.text.length < 5
  · rw [if_pos h2]; exact .inl rfl
  rw [if_neg h2]
  cases hm : firstPatMatch e.text with
  | none => exact .inl rfl
  | some p =>
    obtain ⟨g1, g2⟩ := p
    dsimp only
    by_cases h3 : clean_section_number g1 = ""
        ∨ st.2.contains (clean_section_number g1) = true
    · rw [if_pos h3]; exact .inl rfl
    rw [if_neg h3]
    by_cases h4 : 30 < (clean_section_number g1).length
    · rw [if_pos h4]; exact .inl rfl
    rw [if_neg h4]
    right
    refine ⟨clean_section_number g1, _, _, ?_, ?_, ?_, rfl⟩
    · exact fun h => h3 (Or.inl h)
    · cases hcon : st.2.contains (clean_section_number g1)
      · rfl
      · exact absurd (Or.inr hcon) h3
    · omega

/-- Shape invariant through strategy 1's fold. -/
theorem strat1_fold_shape :
    ∀ (d : List Elem) (st : List Section × List String),
      (∀ s ∈ st.1, SecShape s) →
      ∀ s ∈ (d.foldl strat1Step st).1, SecShape s := by
  intro d
  induction d with
  | nil => intro st h; exact h
  | cons e es ih =>
    intro st h
    rw [List.foldl_cons]
    apply ih
    rcases strat1Step_cases st e with heq | ⟨num, hd, tx, hne, -, hlen, heq⟩
    · rw [heq]; exact h
    · rw [heq]
      intro s hs
      rcases List.mem_append.1 hs with h' | h'
      · exact h s h'
      · rcases List.mem_singleton.1 h' with rfl
        exact ⟨num, hd, tx, hne, hlen, rfl⟩

/-- Shape invariant for strategy 2. -/
theorem strat2_shape :
    ∀ (doc : List Elem) (seen : List String),
      ∀ s ∈ strat2 doc seen, SecShape s := by
  intro doc
  induction doc with
  | nil => intro seen s hs; simp [strat2] at hs
  | cons e rest ih =>
    intro seen s
    simp only [strat2]
    by_cases h1 : headingTags.contains e.tag
    case neg => rw [if_neg h1]; exact ih seen s
    rw [if_pos h1]
    cases hm : firstPatMatch e.text with
    | none => exact ih seen s
    | some p =>
      obtain ⟨g1, g2⟩ := p
      dsimp only
      by_cases h2 : clean_section_number g1 = ""
          ∨ seen.contains (clean_section_number g1) = true
          ∨ 30 < (clean_section_number g1).length
      · rw [if_pos h2]; exact ih seen s
      · rw [if_neg h2]
        push_neg at h2
        obtain ⟨h2a, h2b, h2c⟩ := h2
        intro hs
        rcases List.mem_cons.1 hs with rfl | h'
        · exact ⟨clean_section_number g1, _, _, h2a, by omega, rfl⟩
        · exact ih (seen ++ [clean_section_number g1]) s h'

/-- Every Section the extraction engine returns has the canonical shape. -/
theorem extract_shape (doc : List Elem) :
    ∀ s ∈ extract_sections_from_soup doc, SecShape s := by
  intro s hs
  unfold extract_sections_from_soup at hs
  dsimp only at hs
  split at hs
  · exact strat2_shape doc _ s hs
  · exact strat1_fold_shape doc ([], []) (by intro s hs; simp at hs) s hs

/-- C6: every Section returned by the extraction engine has a number of at
most 30 characters; longer number tokens are never accepted. -/
theorem C6_number_max_30 (doc : List Elem) (s : Section)
    (hs : s ∈ extract_sections_from_soup doc) : s.number.length ≤ 30 := by
  obtain ⟨num, hd, tx, -, hlen, rfl⟩ := extract_shape doc s hs
  exact hlen

/-- C6 witness: the Section extracted from the concrete document has a
7-character number. -/
theorem C6_number_max_30_witness :
    (⟨"section-1-1-10", "1-1-10.",
      "Short title. This chapter shall be known as...",
      "Short title. This chapter shall be known as...", "", ""⟩ :
      Section).number.length ≤ 30 :=
  C6_number_max_30
    [⟨"p", "§ 1-1-10. Short title. This chapter shall be known as..."⟩] _
    (by decide)

/-- C7: every Section produced by the extraction engine has
`id = "section-" ++ slugify number`; hence the id is a pure function of
the number and equal numbers give equal ids across documents and runs. -/
theorem C7_id_pure_function_of_number :
    (∀ (doc : List Elem) (s : Section),
      s ∈ extract_sections_from_soup doc →
      s.id = "section-" ++ slugify s.number)
    ∧ ∀ (doc1 doc2 : List Elem) (s1 s2 : Section),
        s1 ∈ extract_sections_from_soup doc1 →
        s2 ∈ extract_sections_from_soup doc2 →
        s1.number = s2.number → s1.id = s2.id := by
  have main : ∀ (doc : List Elem) (s : Section),
      s ∈ extract_sections_from_soup doc →
      s.id = "section-" ++ slugify s.number := by
    intro doc s hs
    obtain ⟨num, hd, tx, -, -, rfl⟩ := extract_shape doc s hs
    rfl
  exact ⟨main, fun d1 d2 s1 s2 h1 h2 hnum => by
    rw [main d1 s1 h1, main d2 s2 h2, hnum]⟩

/-- C7 witness: the id of the Section extracted from the concrete document
is the slug of its number. -/
theorem C7_id_pure_function_of_number_witness :
    (⟨"section-1-1-10", "1-1-10.",
      "Short title. This chapter shall be known as...",
      "Short title. This chapter shall be known as...", "", ""⟩ :
      Section).id
      = "section-" ++ slugify (⟨"section-1-1-10", "1-1-10.",
          "Short title. This chapter shall be known as...",
          "Short title. This chapter shall be known as...", "", ""⟩ :
          Section).number :=
  C7_id_pure_function_of_number.1
    [⟨"p", "§ 1-1-10. Short title. This chapter shall be known as..."⟩] _
    (by decide)

/-- Number-uniqueness invariant through strategy 1's fold: the produced
numbers are distinct and all recorded in `seen`. -/
theorem strat1_fold_nodup :
    ∀ (d : List Elem) (st : List Section × List String),
      ((st.1.map Section.number).Nodup ∧ ∀ s ∈ st.1, s.number ∈ st.2) →
      ((d.foldl strat1Step st).1.map Section.number).Nodup
      ∧ ∀ s ∈ (d.foldl strat1Step st).1,
          s.number ∈ (d.foldl strat1Step st).2 := by
  intro d
  induction d with
  | nil => intro st h; exact h
  | cons e es ih =>
    intro st h
    rw [List.foldl_cons]
    apply ih
    rcases strat1Step_cases st e with heq | ⟨num, hd, tx, -, hcon, -, heq⟩
    · rw [heq]; exact h
    · rw [heq]
      have hnotin : num ∉ st.2 := by
        intro hmem
        have : st.2.contains num = true := by simpa using hmem
        rw [hcon] at this
        cases this
      constructor
      · have hnummap : num ∉ st.1.map Section.number := by
          intro hmem
          rcases List.mem_map.1 hmem with ⟨s, hsmem, hsnum⟩
          exact hnotin (hsnum ▸ h.2 s hsmem)
        have : (st.1.map Section.number ++ [num]).Nodup := by
          rw [List.nodup_append]
          exact ⟨h.1, List.nodup_singleton num,
            fun a ha hb => by
              rcases List.mem_singleton.1 hb with rfl
              exact hnummap ha⟩
        simpa using this
      · intro s hs
        rcases List.mem_append.1 hs with h' | h'
        · exact List.mem_append.2 (.inl (h.2 s h'))
        · rcases List.mem_singleton.1 h' with rfl
          exact List.mem_append.2 (.inr (by simp))

/-- Number-uniqueness invariant for strategy 2: the produced numbers are
distinct and none of them was already in `seen`. -/
theorem strat2_nodup :
    ∀ (doc : List Elem) (seen : List String),
      ((strat2 doc seen).map Section.number).Nodup
      ∧ ∀ s ∈ strat2 doc seen, s.number ∉ seen := by
  intro doc
  induction doc with
  | nil => intro seen; simp [strat2]
  | cons e rest ih =>
    intro seen
    simp only [strat2]
    by_cases h1 : headingTags.contains e.tag
    case neg => rw [if_neg h1]; exact ih seen
    rw [if_pos h1]
    cases hm : firstPatMatch e.text with
    | none => exact ih seen
    | some p =>
      obtain ⟨g1, g2⟩ := p
      dsimp only
      by_cases h2 : clean_section_number g1 = ""
          ∨ seen.contains (clean_section_number g1) = true
          ∨ 30 < (clean_section_number g1).length
      · rw [if_pos h2]; exact ih seen
      · rw [if_neg h2]
        push_neg at h2
        obtain ⟨-, h2b, -⟩ := h2
        obtain ⟨ihn, ihs⟩ := ih (seen ++ [clean_section_number g1])
        constructor
        · rw [List.map_cons, List.nodup_cons]
          refine ⟨?_, ihn⟩
          intro hmem
          rcases List.mem_map.1 hmem with ⟨s, hsmem, hsnum⟩
          exact ihs s hsmem
            (hsnum ▸ List.mem_append.2 (.inr (by simp)))
        · intro s hs
          rcases List.mem_cons.1 hs with rfl | h'
          · simpa using h2b
          · exact fun hmem =>
              ihs s h' (List.mem_append.2 (.inl hmem))

/-- C5: within one document the extraction engine never produces two
Sections with the same number (first occurrence wins): the returned
numbers are pairwise distinct, and a strategy-1 step whose matched number
was already seen leaves the state — sections and seen set — unchanged. -/
theorem C5_dedup_first_wins :
    (∀ doc : List Elem,
      ((extract_sections_from_soup doc).map Section.number).Nodup)
    ∧ ∀ (st : List Section × List String) (e : Elem) (g1 g2 : String),
        firstPatMatch e.text = some (g1, g2) →
        st.2.contains (clean_section_number g1) = true →
        strat1Step st e = st := by
  constructor
  · intro doc
    unfold extract_sections_from_soup
    dsimp only
    split
    · exact (strat2_nodup doc _).1
    · exact (strat1_fold_nodup doc ([], []) (by simp)).1
  · intro st e g1 g2 hm hcon
    unfold strat1Step
    by_cases h1 : blockTags.contains e.tag
    case neg => rw [if_neg h1]
    rw [if_pos h1]
    by_cases h2 : e.text = "" ∨ e.text.length < 5
    · rw [if_pos h2]
    · rw [if_neg h2, hm]
      dsimp only
      rw [if_pos (Or.inr hcon)]

/-- C5 witness: with `1-1.` already seen, the element `§ 1-1. X. y` is
ignored by the strategy-1 step. -/
theorem C5_dedup_first_wins_witness :
    strat1Step ([], ["1-1."]) ⟨"p", "§ 1-1. X. y"⟩ = ([], ["1-1."]) :=
  C5_dedup_first_wins.2 ([], ["1-1."]) ⟨"p", "§ 1-1. X. y"⟩ "1-1." "X. y"
    (by decide) (by decide)

/-- A chapter parsed from a chapter file has sections. -/
theorem parse_chapter_file_ne_nil (f : ChapterFileData) (c : Chapter)
    (h : parse_chapter_file f = some c) : c.sections ≠ [] := by
  unfold parse_chapter_file at h
  by_cases he : f.sections.isEmpty
  · rw [if_pos he] at h; cases h
  · rw [if_neg he] at h
    injection h with h'
    rw [← h']
    simpa using he

/-- Every chapter `_parse_title_dir` builds has sections. -/
theorem titleDirChapters_sections (d : TitleDirData) :
    ∀ c ∈ titleDirChapters d, c.sections ≠ [] := by
  intro c hc
  unfold titleDirChapters at hc
  dsimp only at hc
  by_cases hA : (d.chapterFiles.filterMap parse_chapter_file).isEmpty
      ∧ d.indexExists
  · rw [if_pos hA] at hc
    by_cases hB : d.indexSections.isEmpty
    · rw [if_pos hB] at hc
      rcases List.mem_filterMap.1 hc with ⟨f, -, hpf⟩
      exact parse_chapter_file_ne_nil f c hpf
    · rw [if_neg hB] at hc
      rcases List.mem_singleton.1 hc with rfl
      simpa using hB
  · rw [if_neg hA] at hc
    rcases List.mem_filterMap.1 hc with ⟨f, -, hpf⟩
    exact parse_chapter_file_ne_nil f c hpf

/-- A title parsed by `_parse_title_dir` has chapters, all non-empty. -/
theorem parse_title_dir_inv (d : TitleDirData) (t : Title)
    (h : parse_title_dir d = some t) :
    t.chapters ≠ [] ∧ ∀ c ∈ t.chapters, c.sections ≠ [] := by
  unfold parse_title_dir at h
  by_cases hC : (titleDirChapters d).isEmpty
  · rw [if_pos hC] at h; cases h
  · rw [if_neg hC] at h
    dsimp only at h
    injection h with h'
    rw [← h']
    exact ⟨by simpa using hC, titleDirChapters_sections d⟩

/-- Every chapter `_generic_parse` builds for a directory has sections. -/
theorem genDirChapters_sections (d : GenTitleDir) :
    ∀ c ∈ genDirChapters d, c.sections ≠ [] := by
  have hfile : ∀ c, ∀ f ∈ d.files, genFileChapter f = some c →
      c.sections ≠ [] := by
    intro c f _ hf
    unfold genFileChapter at hf
    by_cases he : f.2.isEmpty
    · rw [if_pos he] at hf; cases hf
    · rw [if_neg he] at hf
      injection hf with h'
      rw [← h']
      simpa using he
  intro c hc
  unfold genDirChapters at hc
  dsimp only at hc
  by_cases hA : d.indexExists ∧ (d.files.filterMap genFileChapter).isEmpty
  · rw [if_pos hA] at hc
    by_cases hB : d.indexSections.isEmpty
    · rw [if_pos hB] at hc
      rcases List.mem_filterMap.1 hc with ⟨f, hfm, hpf⟩
      exact hfile c f hfm hpf
    · rw [if_neg hB] at hc
      rcases List.mem_append.1 hc with h' | h'
      · rcases List.mem_filterMap.1 h' with ⟨f, hfm, hpf⟩
        exact hfile c f hfm hpf
      · rcases List.mem_singleton.1 h' with rfl
        simpa using hB
  · rw [if_neg hA] at hc
    rcases List.mem_filterMap.1 hc with ⟨f, hfm, hpf⟩
    exact hfile c f hfm hpf

/-- A directory title of `_generic_parse` has chapters, all non-empty. -/
theorem genDirTitle_inv (d : GenTitleDir) (t : Title)
    (h : genDirTitle d = some t) :
    t.chapters ≠ [] ∧ ∀ c ∈ t.chapters, c.sections ≠ [] := by
  unfold genDirTitle at h
  by_cases hC : (genDirChapters d).isEmpty
  · rw [if_pos hC] at h; cases h
  · rw [if_neg hC] at h
    injection h with h'
    rw [← h']
    exact ⟨by simpa using hC, genDirChapters_sections d⟩

/-- A flat-file title of `_generic_parse` has one non-empty chapter. -/
theorem genFlatTitle_inv (f : String × List Section) (t : Title)
    (h : genFlatTitle f = some t) :
    t.chapters ≠ [] ∧ ∀ c ∈ t.chapters, c.sections ≠ [] := by
  unfold genFlatTitle at h
  by_cases he : f.2.isEmpty
  · rw [if_pos he] at h; cases h
  · rw [if_neg he] at h
    injection h with h'
    rw [← h']
    refine ⟨by simp, ?_⟩
    intro c hc
    rcases List.mem_singleton.1 hc with rfl
    simpa using he

/-- C9: in both ingestor parses, every returned Title has at least one
Chapter and every Chapter at least one Section — empty chapters are
dropped before attachment, empty titles before the StateCode. -/
theorem C9_no_empty_nodes :
    (∀ (dirs : List TitleDirData), ∀ t ∈ justia_parse dirs,
      t.chapters ≠ [] ∧ ∀ c ∈ t.chapters, c.sections ≠ [])
    ∧ ∀ (dirs : List GenTitleDir) (flat : List (String × List Section)),
        ∀ t ∈ generic_parse dirs flat,
          t.chapters ≠ [] ∧ ∀ c ∈ t.chapters, c.sections ≠ [] := by
  constructor
  · intro dirs t ht
    unfold justia_parse at ht
    rcases List.mem_filter.1 ht with ⟨ht', -⟩
    rcases List.mem_filterMap.1 ht' with ⟨d, -, hpd⟩
    exact parse_title_dir_inv d t hpd
  · intro dirs flat t ht
    unfold generic_parse at ht
    rcases List.mem_append.1 ht with h | h
    · rcases List.mem_filterMap.1 h with ⟨d, -, hpd⟩
      exact genDirTitle_inv d t hpd
    · rcases List.mem_filterMap.1 h with ⟨f, -, hpf⟩
      exact genFlatTitle_inv f t hpf

/-- C9 witness: a concrete one-title, one-chapter, one-section input
yields a non-empty title with non-empty chapters. -/
theorem C9_no_empty_nodes_witness :
    (⟨"title-title-1", "1", "Title 1",
        [⟨"chapter-chapter-2", "2", "Ch Two",
          [⟨"s", "1", "h", "t", "", ""⟩]⟩]⟩ : Title).chapters ≠ []
    ∧ ∀ c ∈ (⟨"title-title-1", "1", "Title 1",
        [⟨"chapter-chapter-2", "2", "Ch Two",
          [⟨"s", "1", "h", "t", "", ""⟩]⟩]⟩ : Title).chapters,
        c.sections ≠ [] :=
  C9_no_empty_nodes.1
    [⟨"title-1", false, "",
      [⟨"chapter-2", "Ch Two", [⟨"s", "1", "h", "t", "", ""⟩]⟩], []⟩] _
    (by decide)

/-- C10 witness: with rate 2, burst 2 and one recorded timestamp, the
sleep at time 1 is within `[0, 1]`. -/
theorem C10_wait_bounded_witness :
    0 ≤ (RLwait ⟨2, 2, [0]⟩ 1).1
    ∧ (RLwait ⟨2, 2, [0]⟩ 1).1 ≤ 1 / 2 * ((2 : Nat) : ℚ) :=
  C10_wait_bounded ⟨2, 2, [0]⟩ 1 (by norm_num) (by norm_num)
    (by intro t ht; simp at ht; simp [ht])

end Statutes
